import Mathlib

/-!
# Verification of the RHD2000/RHD2164 driver core (`src/rhd.c`)

Shallow embedding of the driver's bit codec, command framing, table-driven
configuration engine, acquisition sequencer and identity sanity check,
together with theorems settling the specification claims.

Conventions of the embedding:
* C machine integers are modelled as `Nat`, with explicit `% 2 ^ w`
  (or `&&& mask`) exactly where a C conversion or operation truncates.
* C `float`/`double` values that only feed ordered comparisons in the
  threshold-selection loops are modelled as `ℚ`; every constant in the
  calibration tables is exactly representable and only ordered comparisons
  are performed on them.
* The injected SPI transport callback `dev->rw(tx, rx, len)` is modelled as
  a function from the transmitted word list to the received word list
  (`rw : List Nat → List Nat`); received words are reduced `% 65536`,
  mirroring the `uint16_t` receive buffer.
* The register-address constants (`rhd.h` of the chip revision) are
  external to this core (spec §6); they appear as explicit parameters of
  the operations that use them.
* The configuration operations (`rhd_cfg_fs`, `rhd_cfg_amp_bw`,
  `rhd_cfg_dsp`) emit register writes through `rhd_w`; with the transport
  modelled as a pure function those effects are represented as returned
  data: each configuration operation returns the list of
  `(register, value)` pairs it passes to `rhd_w`, in order.
-/

namespace Rhd

/-! ## BitCodec -/

/-- `rhd_duplicate_bits` (`rhd.c:330`): duplicate each of the 8 low bits of
`val`, producing a 16-bit value.  The `uint8_t` parameter conversion is the
`% 256`. -/
def rhd_duplicate_bits (val : Nat) : Nat :=
  (List.range 8).foldl
    (fun out i =>
      let tmp := ((val % 256) >>> i) &&& 1
      out ||| ((tmp <<< 1 ||| tmp) <<< (2 * i)))
    0

/-- `shift_arr` (`rhd.c:343`): single-bit masks used by `rhd_unsplit_u16`. -/
def shift_arr : List Nat := [0x1, 0x2, 0x4, 0x8, 0x10, 0x20, 0x40, 0x80]

/-- `rhd_unsplit_u16` (`rhd.c:341`): de-interleave a received DDR word
`0bxyxy…xy` into the two 8-bit streams `(a, b)`; `a` collects the `x` bits,
`b` the `y` bits.  Each accumulated term is masked to a single bit below
`0x100`, so the C `uint8_t` stores never truncate. -/
def rhd_unsplit_u16 (data : Nat) : Nat × Nat :=
  let d := data % 65536
  let dataa := d >>> 1
  let aa := (List.range 8).foldl (fun aa i => aa ||| ((dataa >>> i) &&& shift_arr.getD i 0)) 0
  let bb := (List.range 8).foldl (fun bb i => bb ||| ((d >>> i) &&& shift_arr.getD i 0)) 0
  (aa, bb)

/-! ## Device handle and CommandCodec -/

/-- `rhd_device_t`: mode flag and the injected transport capability
(`rw`, modelled as a function from tx buffer to rx buffer). -/
structure rhd_device where
  double_bits : Bool
  rw : List Nat → List Nat

/-- `rhd_send` (`rhd.c:38`): frame one logical register access.  Single
mode sends one word `(reg << 8) | (val & 0xFF)` and returns the low byte of
the reply; double mode sends the two duplicated-bit words and returns the
`a` stream of the unsplit second reply word. -/
def rhd_send (dev : rhd_device) (reg val : Nat) : Nat :=
  if dev.double_bits then
    let tx0 := rhd_duplicate_bits reg
    let tx1 := rhd_duplicate_bits val
    let rxl := dev.rw [tx0, tx1]
    (rhd_unsplit_u16 (rxl.getD 1 0 % 65536)).1
  else
    let tx := ((reg % 65536) <<< 8 ||| (val &&& 0xFF)) % 65536
    ((dev.rw [tx]).getD 0 0 % 65536) &&& 0xFF

/-- `rhd_r` (`rhd.c:63`): read; the register address is masked to 6 bits
and opcode bits `b[7,6] = [1,1]` are set. -/
def rhd_r (dev : rhd_device) (reg : Nat) : Nat :=
  rhd_send dev ((reg &&& 0x3F) ||| 0xC0) 0

/-- `rhd_w` (`rhd.c:70`): write; the register address is masked to 6 bits
and opcode bits `b[7,6] = [1,0]` are set. -/
def rhd_w (dev : rhd_device) (reg val : Nat) : Nat :=
  rhd_send dev ((reg &&& 0x3F) ||| 0x80) val

/-! ## ConfigurationEngine: sample-rate bias (`rhd_cfg_fs`, `rhd.c:127`) -/

/-- `msps_lut` (`rhd.c:130`): ascending throughput thresholds. -/
def msps_lut : List ℚ := [120000, 140000, 175000, 220000, 280000, 350000, 440000, 525000, 700000]

/-- `adc_buf_bias_lut` (`rhd.c:132`). -/
def adc_buf_bias_lut : List Nat := [32, 16, 8, 8, 8, 4, 3, 3, 2]

/-- `mux_bias_lut` (`rhd.c:133`). -/
def mux_bias_lut : List Nat := [40, 40, 40, 32, 26, 18, 16, 7, 4]

/-- Selection loop of `rhd_cfg_fs` (`rhd.c:135`): `i_lut` is assigned the
current index `i` on every iteration that does not break; the loop breaks
at the first threshold with `msps ≤ threshold`. -/
def rhd_i_lut_go (msps : ℚ) : List ℚ → Nat → Nat → Nat
  | [], _, i_lut => i_lut
  | t :: rest, i, i_lut => if msps ≤ t then i_lut else rhd_i_lut_go msps rest (i + 1) i

/-- Table index selected by `rhd_cfg_fs` for a throughput `msps`. -/
def rhd_i_lut (msps : ℚ) : Nat := rhd_i_lut_go msps msps_lut 0 0

/-- `rhd_cfg_fs` (`rhd.c:127`): compute `msps = fs * n_ch`, select the
table index, and write the ADC-buffer-bias and MUX-bias codes (two `rhd_w`
calls, returned as write pairs); the function's C return value is `msps`
(truncated to `int`; the truncation is not modelled as no claim concerns
it). -/
def rhd_cfg_fs (r_adc_buf_bias r_mux_bias : Nat) (fs : ℚ) (n_ch : Nat) :
    List (Nat × Nat) × ℚ :=
  let msps := fs * n_ch
  let i_lut := rhd_i_lut msps
  ([(r_adc_buf_bias, adc_buf_bias_lut.getD i_lut 0), (r_mux_bias, mux_bias_lut.getD i_lut 0)],
    msps)

/-! ## ConfigurationEngine: amplifier bandwidth (`rhd_cfg_amp_bw`, `rhd.c:151`) -/

/-- `fh_lut` (`rhd.c:153`): descending high-cutoff thresholds, 17 entries. -/
def fh_lut : List ℚ :=
  [20000, 15000, 10000, 7500, 5000, 3000, 2500, 2000, 1500, 1000, 750, 500, 300, 250, 200, 150, 100]

/-- `rh1_dac1_lut` (`rhd.c:156`). -/
def rh1_dac1_lut : List Nat := [8, 11, 17, 22, 33, 3, 13, 27, 1, 46, 41, 30, 6, 42, 24, 44, 38]

/-- `rh1_dac2_lut` (`rhd.c:158`). -/
def rh1_dac2_lut : List Nat := [0, 0, 0, 0, 0, 1, 1, 1, 2, 2, 3, 5, 9, 10, 13, 17, 26]

/-- `rh2_dac1_lut` (`rhd.c:160`). -/
def rh2_dac1_lut : List Nat := [4, 8, 16, 23, 37, 13, 25, 44, 23, 30, 36, 43, 2, 5, 7, 8, 5]

/-- `rh2_dac2_lut` (`rhd.c:162`). -/
def rh2_dac2_lut : List Nat := [0, 0, 0, 0, 0, 1, 1, 1, 2, 3, 4, 6, 11, 13, 16, 21, 31]

/-- High-cutoff selection loop (`rhd.c:165`): `i_fh` counts the leading
entries with `fh < entry`; the loop breaks at the first entry with
`fh ≥ entry`.  If no entry qualifies the counter ends at the full table
length (17), one past the last valid index. -/
def rhd_i_fh_go (fh : ℚ) : List ℚ → Nat
  | [] => 0
  | t :: rest => if fh ≥ t then 0 else rhd_i_fh_go fh rest + 1

/-- High-cutoff table index selected by `rhd_cfg_amp_bw`. -/
def rhd_i_fh (fh : ℚ) : Nat := rhd_i_fh_go fh fh_lut

/-- `fl_lut` (`rhd.c:175`): ascending low-cutoff thresholds, 25 entries. -/
def fl_lut : List ℚ :=
  [0.1, 0.25, 0.3, 0.5, 0.75, 1.0, 1.5, 2.0, 2.5, 3.0, 5.0, 7.5, 10, 15, 20, 25, 30, 50,
    75, 100, 150, 200, 250, 300, 500]

/-- `rl_dac1_lut` (`rhd.c:178`). -/
def rl_dac1_lut : List Nat :=
  [16, 56, 1, 35, 49, 44, 9, 8, 42, 20, 40, 18, 5, 62, 54, 48, 44, 34, 28, 25, 21, 18, 17, 15, 13]

/-- `rl_dac2_lut` (`rhd.c:181`). -/
def rl_dac2_lut : List Nat :=
  [60, 54, 40, 17, 9, 6, 4, 3, 2, 2, 1, 1, 1, 0, 0, 0, 0, 0, 0, 0, 0, 0, 0, 0, 0]

/-- `rl_dac3_lut` (`rhd.c:183`). -/
def rl_dac3_lut : List Nat :=
  [1, 0, 0, 0, 0, 0, 0, 0, 0, 0, 0, 0, 0, 0, 0, 0, 0, 0, 0, 0, 0, 0, 0, 0, 0]

/-- Low-cutoff selection loop (`rhd.c:186`): `i_fl` counts the leading
entries with `fl > entry`; the loop breaks at the first entry with
`fl ≤ entry`.  If no entry qualifies the counter ends at the full table
length (25), one past the last valid index. -/
def rhd_i_fl_go (fl : ℚ) : List ℚ → Nat
  | [] => 0
  | t :: rest => if fl ≤ t then 0 else rhd_i_fl_go fl rest + 1

/-- Low-cutoff table index selected by `rhd_cfg_amp_bw`. -/
def rhd_i_fl (fl : ℚ) : Nat := rhd_i_fl_go fl fl_lut

/-- `rhd_cfg_amp_bw` (`rhd.c:151`): the six register writes, as
`(register, value)` pairs in program order.  `List.getD … 0` is used for
the DAC-table lookups; note that at `i_fh = 17` or `i_fl = 25` the C code
reads past the end of the tables (undefined behavior), which the default
value of `getD` cannot represent — that out-of-bounds case is settled
separately through `rhd_i_fh` / `rhd_i_fl`. -/
def rhd_cfg_amp_bw (r_sel0 r_sel1 r_sel2 r_sel3 r_sel4 r_sel5 : Nat) (fl fh : ℚ) :
    List (Nat × Nat) :=
  let i_fh := rhd_i_fh fh
  let i_fl := rhd_i_fl fl
  [(r_sel0, rh1_dac1_lut.getD i_fh 0),
   (r_sel1, rh1_dac2_lut.getD i_fh 0),
   (r_sel2, rh2_dac1_lut.getD i_fh 0),
   (r_sel3, rh2_dac2_lut.getD i_fh 0),
   (r_sel4, rl_dac1_lut.getD i_fl 0),
   (r_sel5, (rl_dac3_lut.getD i_fl 0 <<< 6) ||| rl_dac2_lut.getD i_fl 0)]

/-! ## ConfigurationEngine: DSP offset removal (`rhd_cfg_dsp`, `rhd.c:207`) -/

/-- `k_lut` (`rhd.c:210`): descending DSP cutoff ratio thresholds, 16
entries. -/
def k_lut : List ℚ :=
  [0.99, 0.1103, 0.04579, 0.02125, 0.01027, 0.005053, 0.002506, 0.001248,
    0.0006229, 0.0003112, 0.0001555, 0.00007773, 0.00003886, 0.00001943,
    0.000009714, 0.000004857]

/-- DSP cutoff selection loop (`rhd.c:219`): `dsp_val` counts the leading
entries with `k ≤ entry`; the loop breaks at the first entry with
`k > entry`.  If no entry qualifies the counter ends at 16, which exceeds
the 4-bit cutoff-select register field. -/
def rhd_dsp_val_go (k : ℚ) : List ℚ → Nat
  | [] => 0
  | t :: rest => if k > t then 0 else rhd_dsp_val_go k rest + 1

/-- The `dsp_val` computed by `rhd_cfg_dsp`: `0` when DSP is disabled,
otherwise the count for `k = fdsp / fs`. -/
def rhd_dsp_val (dsp : Bool) (fdsp fs : ℚ) : Nat :=
  if dsp then rhd_dsp_val_go (fdsp / fs) k_lut else 0

/-- `rhd_cfg_dsp` (`rhd.c:207`): the single register write, as a
`(register, value)` pair; the value ORs the format bits with `dsp_val`
without any range check. -/
def rhd_cfg_dsp (r_fmt : Nat) (twos_comp abs_mode dsp : Bool) (fdsp fs : ℚ) : Nat × Nat :=
  let dsp_val := rhd_dsp_val dsp fdsp fs
  (r_fmt,
    (1 <<< 7) ||| ((cond twos_comp 1 0) <<< 6) ||| ((cond abs_mode 1 0) <<< 5) |||
      ((cond dsp 1 0) <<< 4) ||| dsp_val)

/-! ## DeviceLifecycle: sanity check (`rhd_sanity_check`, `rhd.c:249`) -/

/-- `rhd_read_force` (`rhd.c:265`): read the same register three times and
keep only the third result.  With the transport modelled as a pure function
the two discarded reads carry no effect, but the call structure is kept. -/
def rhd_read_force (dev : rhd_device) (reg : Nat) : Nat :=
  let _ := rhd_r dev reg
  let _ := rhd_r dev reg
  rhd_r dev reg

/-- The ASCII codes of the identity signature `"INTAN"` (`rhd.c:251`). -/
def rhd_sanity_list : List Nat := [73, 78, 84, 65, 78]

/-- Loop of `rhd_sanity_check` (`rhd.c:253`): walk the offsets in order;
on the first mismatching register return `i + INTAN_0`, otherwise fall
through to `0`. -/
def rhd_sanity_loop (dev : rhd_device) (intan_0 : Nat) : List Nat → Nat
  | [] => 0
  | i :: rest =>
    let c := rhd_read_force dev (intan_0 + i)
    if c ≠ rhd_sanity_list.getD i 0 then i + intan_0
    else rhd_sanity_loop dev intan_0 rest

/-- `rhd_sanity_check` (`rhd.c:249`): compare the 5 identity registers
(`INTAN_0 + 0 … INTAN_0 + 4`, the base address being an external chip
constant) against `"INTAN"`. -/
def rhd_sanity_check (dev : rhd_device) (intan_0 : Nat) : Nat :=
  rhd_sanity_loop dev intan_0 [0, 1, 2, 3, 4]

/-! ## ChannelAcquisitionSequencer (`rhd2164_sample`, `rhd2164_sample_all`) -/

/-- `rhd2164_sample` (`rhd.c:274`): issue a channel-select command and
return the contents of the caller's two-word `rx` buffer.  Single mode
transfers one word into `rx[0]` (leaving `rx[1]` untouched); double mode
transfers two words, unsplits both, and reassembles the two die values
with the high byte taken from the first received word, the low byte from
the second, forcing bit 0 of each. -/
def rhd2164_sample (dev : rhd_device) (ch : Nat) (rx : Nat × Nat) : Nat × Nat :=
  if dev.double_bits then
    let tx0 := rhd_duplicate_bits ch
    let rxl := dev.rw [tx0, 0]
    let r0 := rxl.getD 0 0 % 65536
    let r1 := rxl.getD 1 0 % 65536
    let dat_a1 := (rhd_unsplit_u16 r0).1
    let dat_b1 := (rhd_unsplit_u16 r0).2
    let dat_a0 := (rhd_unsplit_u16 r1).1
    let dat_b0 := (rhd_unsplit_u16 r1).2
    ((dat_a1 <<< 8) ||| dat_a0 ||| 1, (dat_b1 <<< 8) ||| dat_b0 ||| 1)
  else
    let tx := ((ch % 65536) <<< 8) % 65536
    ((dev.rw [tx]).getD 0 0 % 65536, rx.2)

/-- The output-slot remap of `rhd2164_sample_all` (`rhd.c:322`):
`rx_ch = ch < 2 ? 31 - ch : ch - 2`. -/
def rhd_rx_ch (ch : Nat) : Nat := if ch < 2 then 31 - ch else ch - 2

/-- Loop body of `rhd2164_sample_all` (`rhd.c:319`): for each request
channel, sample (threading the reused two-word `rx` buffer) and store the
die-A result at the remapped slot and the die-B result at `slot + 32`.
The sample buffer is modelled as a function `Nat → Nat`. -/
def rhd2164_sample_all_loop (dev : rhd_device) :
    List Nat → (Nat → Nat) → Nat × Nat → (Nat → Nat) × (Nat × Nat)
  | [], buf, rx => (buf, rx)
  | ch :: rest, buf, rx =>
    let rx' := rhd2164_sample dev ch rx
    let rx_ch := rhd_rx_ch ch
    let buf' := fun j => if j = rx_ch + 32 then rx'.2 else if j = rx_ch then rx'.1 else buf j
    rhd2164_sample_all_loop dev rest buf' rx'

/-- `rhd2164_sample_all` (`rhd.c:312`): run the 32-request sweep starting
from a zeroed local `rx` pair, then clear the least-significant bit of
slot 0 (`sample_buf[0] &= 0xFFFE`). -/
def rhd2164_sample_all (dev : rhd_device) (sample_buf : Nat → Nat) : Nat → Nat :=
  let res := rhd2164_sample_all_loop dev (List.range 32) sample_buf (0, 0)
  fun j => if j = 0 then res.1 0 &&& 0xFFFE else res.1 j

/-- State of the reused `rx` buffer after the first `n` requests of the
sweep: request `n` is issued against the buffer left by request `n - 1`.
The pair after `n + 1` requests is the result returned for request `n`. -/
def rhd_sample_seq (dev : rhd_device) (rx : Nat × Nat) : Nat → Nat × Nat
  | 0 => rx
  | n + 1 => rhd2164_sample dev n (rhd_sample_seq dev rx n)

/-! ## Helper lemmas -/

/-- `List.range 8` as a literal list, for unfolding the fixed-bound loops
of the bit codec. -/
theorem range_eight : List.range 8 = [0, 1, 2, 3, 4, 5, 6, 7] := by rfl

/-- The single-bit masks of `shift_arr` written as powers of two. -/
theorem shift_arr_pow :
    shift_arr = [2 ^ 0, 2 ^ 1, 2 ^ 2, 2 ^ 3, 2 ^ 4, 2 ^ 5, 2 ^ 6, 2 ^ 7] := by
  norm_num [shift_arr]

/-- ORing opcode bits into an address does not change its low 6 bits. -/
theorem and_3F_or_C0 (reg : Nat) : (reg ||| 0xC0) &&& 0x3F = reg &&& 0x3F := by
  rw [Nat.and_distrib_right, (by decide : (0xC0 : Nat) &&& 0x3F = 0), Nat.or_zero]

/-- Setting the read opcode on a 6-bit address yields top bits `11`. -/
theorem addr_or_C0_shift : ∀ x : Fin 64, (x.val ||| 0xC0) >>> 6 = 3 := by decide

/-- Setting the write opcode on a 6-bit address yields top bits `10`. -/
theorem addr_or_80_shift : ∀ x : Fin 64, (x.val ||| 0x80) >>> 6 = 2 := by decide

/-! ## Claim theorems: BitCodec -/

set_option maxRecDepth 4000 in
/-- C1 counterexample: at `w = 2` the claimed property "stream `b`'s bit
`i` equals bit `i` of `w`" fails at `i = 1`: the code's `b` has bit 1
equal to bit 2 of `w` (which is 0), not bit 1 of `w` (which is 1). -/
theorem c1_claimed_b_bit_fails :
    (rhd_unsplit_u16 2).2.testBit 1 ≠ (2 : Nat).testBit 1 := by decide

/-- C1 (amended): for every 16-bit word `w` and bit position `i < 8`,
`rhd_unsplit_u16 w = (a, b)` satisfies: `b`'s bit `i` equals bit `2 * i`
of `w`, and `a`'s bit `i` equals bit `2 * i + 1` of `w` — the streams are
de-interleaved from alternating bit pairs of the word, not taken from the
word and the word shifted by one. -/
theorem c1_unsplit_deinterleaves : ∀ w : Fin 65536, ∀ i : Fin 8,
    (rhd_unsplit_u16 w.val).2.testBit i.val = w.val.testBit (2 * i.val) ∧
    (rhd_unsplit_u16 w.val).1.testBit i.val = w.val.testBit (2 * i.val + 1) := by
  rintro ⟨w, hw⟩ i
  have hmod : w % 65536 = w := Nat.mod_eq_of_lt hw
  fin_cases i <;>
  · constructor <;>
    · simp only [rhd_unsplit_u16, range_eight, shift_arr_pow, hmod, List.foldl_cons,
        List.foldl_nil, List.getD_cons_zero, List.getD_cons_succ]
      simp only [Nat.testBit_or, Nat.testBit_and, Nat.testBit_shiftRight, Nat.testBit_two_pow]
      simp

set_option maxRecDepth 100000 in
/-- C8: for every 8-bit input `v`, `rhd_duplicate_bits v` is the 16-bit
value whose bits `2 * i` and `2 * i + 1` both equal bit `i` of `v`, for
each `i < 8`; in particular the four documented values hold. -/
theorem c8_duplicate_bits :
    (∀ v : Fin 256,
      rhd_duplicate_bits v.val < 65536 ∧
      ∀ i : Fin 8,
        (rhd_duplicate_bits v.val).testBit (2 * i.val) = v.val.testBit i.val ∧
        (rhd_duplicate_bits v.val).testBit (2 * i.val + 1) = v.val.testBit i.val) ∧
    rhd_duplicate_bits 0x00 = 0x0000 ∧
    rhd_duplicate_bits 0xFF = 0xFFFF ∧
    rhd_duplicate_bits 0b01010011 = 0x330F ∧
    rhd_duplicate_bits 0b10000000 = 0xC000 := by decide

set_option maxRecDepth 100000 in
/-- C10: composing the two codec directions recovers the original byte on
both output streams: for every 8-bit `v`,
`rhd_unsplit_u16 (rhd_duplicate_bits v) = (v, v)`. -/
theorem c10_unsplit_duplicate_roundtrip :
    ∀ v : Fin 256, rhd_unsplit_u16 (rhd_duplicate_bits v.val) = (v.val, v.val) := by decide

/-! ## Claim theorems: CommandCodec framing -/

/-- C9: `rhd_r` issues the address byte `(reg & 0x3F) | 0xC0` (top two
bits `11`) and `rhd_w` the address byte `(reg & 0x3F) | 0x80` (top two
bits `10`), the address being masked to its low 6 bits first; consequently
pre-set opcode bits in the input are ignored: `rhd_r dev (reg ||| 0xC0)`
and `rhd_r dev reg` make identical transfers for every device, and
likewise for `rhd_w`. -/
theorem c9_opcode_framing : ∀ (reg val : Nat) (dev : rhd_device),
    rhd_r dev reg = rhd_send dev ((reg &&& 0x3F) ||| 0xC0) 0 ∧
    rhd_w dev reg val = rhd_send dev ((reg &&& 0x3F) ||| 0x80) val ∧
    ((reg &&& 0x3F) ||| 0xC0) >>> 6 = 3 ∧
    ((reg &&& 0x3F) ||| 0x80) >>> 6 = 2 ∧
    rhd_r dev (reg ||| 0xC0) = rhd_r dev reg ∧
    rhd_w dev (reg ||| 0xC0) val = rhd_w dev reg val := by
  intro reg val dev
  have hlt : reg &&& 0x3F < 64 := Nat.lt_succ_of_le Nat.and_le_right
  refine ⟨rfl, rfl, addr_or_C0_shift ⟨reg &&& 0x3F, hlt⟩, addr_or_80_shift ⟨reg &&& 0x3F, hlt⟩,
    ?_, ?_⟩
  · unfold rhd_r
    rw [and_3F_or_C0]
  · unfold rhd_w
    rw [and_3F_or_C0]

/-! ## Claim theorems: acquisition (`rhd2164_sample`) -/

set_option maxRecDepth 10000 in
/-- C5 counterexample: with a transport returning first word `0` and
second word `0xFFFF`, the claimed reconstruction (low byte of the result
from the first received word, high byte from the second) would give
`0xFF01`, but the code returns `0x00FF`: it takes the high byte from the
first received word and the low byte from the second. -/
theorem c5_claimed_byte_order_fails :
    (rhd2164_sample ⟨true, fun _ => [0, 0xFFFF]⟩ 0 (0, 0)).1 ≠
      ((rhd_unsplit_u16 0xFFFF).1 <<< 8) ||| (rhd_unsplit_u16 0).1 ||| 1 := by decide

/-- C5 (amended): in double mode `rhd2164_sample` performs one transfer of
two words (`[duplicate_bits ch, 0]`) and reconstructs each die value by
applying `rhd_unsplit_u16` to both received words, taking the HIGH byte
from the first received word and the LOW byte from the second, and forces
bit 0 of each returned value to 1. -/
theorem c5_sample_double_reconstruction :
    ∀ (f : List Nat → List Nat) (ch : Nat) (rx : Nat × Nat),
    rhd2164_sample ⟨true, f⟩ ch rx =
      (((rhd_unsplit_u16 ((f [rhd_duplicate_bits ch, 0]).getD 0 0 % 65536)).1 <<< 8) |||
          (rhd_unsplit_u16 ((f [rhd_duplicate_bits ch, 0]).getD 1 0 % 65536)).1 ||| 1,
        ((rhd_unsplit_u16 ((f [rhd_duplicate_bits ch, 0]).getD 0 0 % 65536)).2 <<< 8) |||
          (rhd_unsplit_u16 ((f [rhd_duplicate_bits ch, 0]).getD 1 0 % 65536)).2 ||| 1) ∧
    (rhd2164_sample ⟨true, f⟩ ch rx).1.testBit 0 = true ∧
    (rhd2164_sample ⟨true, f⟩ ch rx).2.testBit 0 = true := by
  intro f ch rx
  refine ⟨rfl, ?_, ?_⟩ <;>
  · simp [rhd2164_sample, Nat.testBit_or]

/-! ## Claim theorems: ConfigurationEngine -/

/-- C2: the high-cutoff and low-cutoff selection counters are NOT clamped
to the final table index when no entry qualifies: at `fh = 90` (below all
17 descending thresholds) the counter ends at 17 — equal to the table
length, one past the last valid index 16 — and at `fl = 600` (above all 25
ascending thresholds) it ends at 25, one past the last valid index 24, so
the subsequent DAC-table lookups are out of bounds in the C code.  At the
boundary in-range inputs (`fh = 100`, `fl = 500`) the counters do select
the final valid indices, and `fh = 20000` selects index 0. -/
theorem c2_cutoff_counter_overruns_table :
    rhd_i_fh 90 = 17 ∧ fh_lut.length = 17 ∧ rh1_dac1_lut.length = 17 ∧
    rhd_i_fl 600 = 25 ∧ fl_lut.length = 25 ∧ rl_dac1_lut.length = 25 ∧
    rhd_i_fh 100 = 16 ∧ rhd_i_fl 500 = 24 ∧ rhd_i_fh 20000 = 0 := by
  norm_num [rhd_i_fh, rhd_i_fh_go, fh_lut, rhd_i_fl, rhd_i_fl_go, fl_lut,
    rh1_dac1_lut, rl_dac1_lut]

/-- C3: when `k = fdsp / fs` is below every entry of the 16-entry DSP
table the counter reaches 16, which exceeds the 4-bit cutoff-select field
(15): the register value `0x80 ||| 0x40 ||| 0x10 ||| 16 = 0xD0` has its
cutoff-select field silently wrapped to 0 (bit 4 of the counter collides
with the DSP-enable bit), indistinguishable from a legitimate
`dsp_val = 0` configuration — there is no configuration-range error. -/
theorem c3_dsp_counter_silently_wraps : ∀ r_fmt : Nat,
    rhd_dsp_val true 1 1000000 = 16 ∧
    rhd_dsp_val true 1 1 = 0 ∧
    rhd_cfg_dsp r_fmt true false true 1 1000000 = (r_fmt, 0xD0) ∧
    rhd_cfg_dsp r_fmt true false true 1 1 = (r_fmt, 0xD0) ∧
    0xD0 &&& 0xF = 0 := by
  intro r_fmt
  have h16 : rhd_dsp_val true 1 1000000 = 16 := by
    norm_num [rhd_dsp_val, k_lut, rhd_dsp_val_go]
  have h0 : rhd_dsp_val true 1 1 = 0 := by
    norm_num [rhd_dsp_val, k_lut, rhd_dsp_val_go]
  refine ⟨h16, h0, ?_, ?_, by decide⟩ <;>
  · simp only [rhd_cfg_dsp, h16, h0]
    exact congrArg (Prod.mk r_fmt) (by decide)

set_option maxHeartbeats 2000000 in
/-- C6: `rhd_cfg_fs` selects from the ascending 9-entry throughput table
the largest index whose threshold is strictly less than
`target = fs * n_ch`, clamped to 0 when `target ≤ 120000` and to 8 when
`target` exceeds all thresholds; targets 100000 and 120000 select index 0
and target 800000 selects index 8; and the two emitted writes carry the
ADC-buffer-bias and MUX-bias codes at the selected index. -/
theorem c6_cfg_fs_selection : ∀ (t fs : ℚ) (r1 r2 n_ch : Nat),
    (t ≤ 120000 → rhd_i_lut t = 0) ∧
    (700000 < t → rhd_i_lut t = 8) ∧
    (∀ i : Nat, i < 9 → msps_lut.getD i 0 < t → (i = 8 ∨ t ≤ msps_lut.getD (i + 1) 0) →
      rhd_i_lut t = i) ∧
    rhd_i_lut 100000 = 0 ∧ rhd_i_lut 120000 = 0 ∧ rhd_i_lut 800000 = 8 ∧
    (rhd_cfg_fs r1 r2 fs n_ch).1 =
      [(r1, adc_buf_bias_lut.getD (rhd_i_lut (fs * n_ch)) 0),
       (r2, mux_bias_lut.getD (rhd_i_lut (fs * n_ch)) 0)] := by
  intro t fs r1 r2 n_ch
  refine ⟨?_, ?_, ?_, by decide, by decide, by decide, rfl⟩
  · intro h
    simp only [rhd_i_lut, msps_lut, rhd_i_lut_go]
    rw [if_pos h]
  · intro h
    simp only [rhd_i_lut, msps_lut, rhd_i_lut_go]
    split_ifs <;> first | rfl | linarith
  · intro i hi h1 h2
    rcases h2 with h8 | h2
    · subst h8
      norm_num [msps_lut] at h1
      simp only [rhd_i_lut, msps_lut, rhd_i_lut_go]
      split_ifs <;> first | rfl | linarith
    · interval_cases i <;> norm_num [msps_lut] at h1 h2 <;>
        (simp only [rhd_i_lut, msps_lut, rhd_i_lut_go]; split_ifs <;> first | rfl | linarith)

/-- C6 witness: the clamp-to-0 rule applied at target 100000 and the
largest-strictly-below rule applied at target 150000 with index 1. -/
theorem c6_cfg_fs_selection_witness :
    ((100000 : ℚ) ≤ 120000 ∧ rhd_i_lut 100000 = 0) ∧
    ((1 : Nat) < 9 ∧ msps_lut.getD 1 0 < (150000 : ℚ) ∧
      ((1 : Nat) = 8 ∨ (150000 : ℚ) ≤ msps_lut.getD 2 0) ∧ rhd_i_lut 150000 = 1) :=
  ⟨⟨by decide, (c6_cfg_fs_selection 100000 0 0 0 0).1 (by decide)⟩,
   ⟨by decide, by decide, by decide,
    (c6_cfg_fs_selection 150000 0 0 0 0).2.2.1 1 (by decide) (by decide) (by decide)⟩⟩

/-! ## Claim theorems: DeviceLifecycle sanity check -/

/-- C7: `rhd_sanity_check` reads each of the 5 consecutive identity
registers via `rhd_read_force` and compares them in order against the
ASCII characters of `"INTAN"`; it returns 0 when all five match, and
otherwise `j + INTAN_0`, the base address plus the offset of the first
mismatching register. -/
theorem c7_sanity_check_first_mismatch : ∀ (dev : rhd_device) (intan_0 : Nat),
    ((∀ i, i < 5 → rhd_read_force dev (intan_0 + i) = rhd_sanity_list.getD i 0) →
      rhd_sanity_check dev intan_0 = 0) ∧
    (∀ j, j < 5 →
      (∀ i, i < j → rhd_read_force dev (intan_0 + i) = rhd_sanity_list.getD i 0) →
      rhd_read_force dev (intan_0 + j) ≠ rhd_sanity_list.getD j 0 →
      rhd_sanity_check dev intan_0 = j + intan_0) := by
  intro dev intan_0
  constructor
  · intro h
    have h0 := h 0 (by omega)
    have h1 := h 1 (by omega)
    have h2 := h 2 (by omega)
    have h3 := h 3 (by omega)
    have h4 := h 4 (by omega)
    simp [rhd_sanity_list] at h0 h1 h2 h3 h4
    simp [rhd_sanity_check, rhd_sanity_loop, rhd_sanity_list, h0, h1, h2, h3, h4]
  · intro j hj hpre hj'
    interval_cases j
    · simp [rhd_sanity_list] at hj'
      simp [rhd_sanity_check, rhd_sanity_loop, rhd_sanity_list, hj']
    · have p0 := hpre 0 (by omega)
      simp [rhd_sanity_list] at p0 hj'
      simp [rhd_sanity_check, rhd_sanity_loop, rhd_sanity_list, p0, hj']
    · have p0 := hpre 0 (by omega)
      have p1 := hpre 1 (by omega)
      simp [rhd_sanity_list] at p0 p1 hj'
      simp [rhd_sanity_check, rhd_sanity_loop, rhd_sanity_list, p0, p1, hj']
    · have p0 := hpre 0 (by omega)
      have p1 := hpre 1 (by omega)
      have p2 := hpre 2 (by omega)
      simp [rhd_sanity_list] at p0 p1 p2 hj'
      simp [rhd_sanity_check, rhd_sanity_loop, rhd_sanity_list, p0, p1, p2, hj']
    · have p0 := hpre 0 (by omega)
      have p1 := hpre 1 (by omega)
      have p2 := hpre 2 (by omega)
      have p3 := hpre 3 (by omega)
      simp [rhd_sanity_list] at p0 p1 p2 p3 hj'
      simp [rhd_sanity_check, rhd_sanity_loop, rhd_sanity_list, p0, p1, p2, p3, hj']

/-- A simulated single-mode transport that echoes the `"INTAN"` signature:
with identity base address 40 the read frame for register `40 + i` is
`(0xE8 + i) << 8`, and the transport answers with the `i`-th signature
letter. -/
def intan_echo_dev : rhd_device :=
  ⟨false, fun tx => [rhd_sanity_list.getD ((tx.headD 0 >>> 8) - 0xE8) 0]⟩

set_option maxRecDepth 40000 in
/-- C7 witness: against the echoing transport with base address 40 every
identity register matches and the sanity check returns 0. -/
theorem c7_sanity_check_first_mismatch_witness :
    (∀ i, i < 5 → rhd_read_force intan_echo_dev (40 + i) = rhd_sanity_list.getD i 0) ∧
    rhd_sanity_check intan_echo_dev 40 = 0 :=
  ⟨by decide, (c7_sanity_check_first_mismatch intan_echo_dev 40).1 (by decide)⟩

/-! ## Claim theorems: acquisition sweep (`rhd2164_sample_all`) -/

/-- The remap sends request indices below 32 to slots below 32. -/
theorem rx_ch_lt (a : Nat) (h : a < 32) : rhd_rx_ch a < 32 := by
  unfold rhd_rx_ch; split_ifs <;> omega

/-- The remap is injective on request indices 0…31. -/
theorem rx_ch_inj (a b : Nat) (ha : a < 32) (hb : b < 32) (hne : a ≠ b) :
    rhd_rx_ch a ≠ rhd_rx_ch b := by
  unfold rhd_rx_ch; split_ifs <;> omega

/-- The sweep loop splits over list concatenation. -/
theorem sample_all_loop_append (dev : rhd_device) (l1 l2 : List Nat) (buf : Nat → Nat)
    (rx : Nat × Nat) :
    rhd2164_sample_all_loop dev (l1 ++ l2) buf rx =
      rhd2164_sample_all_loop dev l2 (rhd2164_sample_all_loop dev l1 buf rx).1
        (rhd2164_sample_all_loop dev l1 buf rx).2 := by
  induction l1 generalizing buf rx with
  | nil => simp [rhd2164_sample_all_loop]
  | cons ch rest ih => simp [rhd2164_sample_all_loop, ih]

/-- After `n` requests the reused `rx` buffer holds `rhd_sample_seq … n`. -/
theorem sample_all_loop_rx (dev : rhd_device) (n : Nat) (buf : Nat → Nat) (rx : Nat × Nat) :
    (rhd2164_sample_all_loop dev (List.range n) buf rx).2 = rhd_sample_seq dev rx n := by
  induction n generalizing buf with
  | zero => simp [rhd2164_sample_all_loop, rhd_sample_seq]
  | succ n ih =>
    rw [List.range_succ, sample_all_loop_append]
    simp [rhd2164_sample_all_loop, rhd_sample_seq, ih]

/-- After any prefix of the sweep that has already served request `ch`,
the buffer holds request `ch`'s die-A result at `rhd_rx_ch ch` and its
die-B result at `rhd_rx_ch ch + 32`: the slots written at step `ch` are
never overwritten by later steps. -/
theorem sample_all_loop_slot (dev : rhd_device) (buf : Nat → Nat) (rx : Nat × Nat)
    (ch : Nat) (hch : ch < 32) :
    ∀ m, ch < m → m ≤ 32 →
      (rhd2164_sample_all_loop dev (List.range m) buf rx).1 (rhd_rx_ch ch) =
        (rhd_sample_seq dev rx (ch + 1)).1 ∧
      (rhd2164_sample_all_loop dev (List.range m) buf rx).1 (rhd_rx_ch ch + 32) =
        (rhd_sample_seq dev rx (ch + 1)).2 := by
  intro m
  induction m with
  | zero => omega
  | succ m ih =>
    intro hlt hle
    rw [List.range_succ, sample_all_loop_append]
    rcases Nat.lt_succ_iff_lt_or_eq.mp hlt with hm | hm
    · have h1 : rhd_rx_ch ch ≠ rhd_rx_ch m + 32 := by
        have := rx_ch_lt ch hch; omega
      have h2 : rhd_rx_ch ch ≠ rhd_rx_ch m := rx_ch_inj ch m hch (by omega) (by omega)
      have h3 : rhd_rx_ch ch + 32 ≠ rhd_rx_ch m + 32 := by
        intro hc; exact h2 (by omega)
      have h4 : rhd_rx_ch ch + 32 ≠ rhd_rx_ch m := by
        have := rx_ch_lt m (by omega); omega
      have := ih hm (by omega)
      simp [rhd2164_sample_all_loop, h1, h2, h3, h4, this.1, this.2]
    · subst hm
      have h1 : rhd_rx_ch ch ≠ rhd_rx_ch ch + 32 := by omega
      constructor
      · simp [rhd2164_sample_all_loop, h1, sample_all_loop_rx, rhd_sample_seq]
      · simp [rhd2164_sample_all_loop, sample_all_loop_rx, rhd_sample_seq]

/-- C4: the sweep requests channels 0…31 and places request `ch`'s die-A
result at slot `31 - ch` for `ch < 2` and `ch - 2` otherwise (so request 0
lands at 31, request 1 at 30), the die-B result at the same slot plus 32,
and after the sweep slot 0's least-significant bit is cleared
unconditionally, whatever the transport returned. -/
theorem c4_sample_all_remap : ∀ (dev : rhd_device) (buf : Nat → Nat) (ch : Nat), ch < 32 →
    (rhd_rx_ch 0 = 31 ∧ rhd_rx_ch 1 = 30 ∧ (2 ≤ ch → rhd_rx_ch ch = ch - 2)) ∧
    (rhd_rx_ch ch ≠ 0 →
      rhd2164_sample_all dev buf (rhd_rx_ch ch) = (rhd_sample_seq dev (0, 0) (ch + 1)).1) ∧
    (rhd_rx_ch ch = 0 →
      rhd2164_sample_all dev buf 0 = (rhd_sample_seq dev (0, 0) (ch + 1)).1 &&& 0xFFFE) ∧
    rhd2164_sample_all dev buf (rhd_rx_ch ch + 32) = (rhd_sample_seq dev (0, 0) (ch + 1)).2 ∧
    (rhd2164_sample_all dev buf 0).testBit 0 = false := by
  intro dev buf ch hch
  have hmain := sample_all_loop_slot dev buf (0, 0) ch hch 32 hch (by omega)
  refine ⟨⟨by decide, by decide, ?_⟩, ?_, ?_, ?_, ?_⟩
  · intro h2; unfold rhd_rx_ch; split_ifs <;> omega
  · intro hne
    simp only [rhd2164_sample_all]
    rw [if_neg hne]
    exact hmain.1
  · intro heq
    have hm := hmain.1
    rw [heq] at hm
    simp only [rhd2164_sample_all]
    rw [if_pos trivial, hm]
  · have hne : rhd_rx_ch ch + 32 ≠ 0 := by omega
    simp only [rhd2164_sample_all]
    rw [if_neg hne]
    exact hmain.2
  · simp only [rhd2164_sample_all]
    rw [if_pos trivial]
    simp [Nat.testBit_and]

/-- A double-mode device whose transport always answers with the same two
words; used to instantiate the sweep theorem. -/
def const_sample_dev : rhd_device := ⟨true, fun _ => [0x1234, 0x5678]⟩

/-- C4 witness: the sweep characterization applied at request channel 5
against a concrete double-mode transport. -/
theorem c4_sample_all_remap_witness :
    (5 : Nat) < 32 ∧
    ((rhd_rx_ch 0 = 31 ∧ rhd_rx_ch 1 = 30 ∧ (2 ≤ 5 → rhd_rx_ch 5 = 5 - 2)) ∧
    (rhd_rx_ch 5 ≠ 0 →
      rhd2164_sample_all const_sample_dev (fun _ => 0) (rhd_rx_ch 5) =
        (rhd_sample_seq const_sample_dev (0, 0) (5 + 1)).1) ∧
    (rhd_rx_ch 5 = 0 →
      rhd2164_sample_all const_sample_dev (fun _ => 0) 0 =
        (rhd_sample_seq const_sample_dev (0, 0) (5 + 1)).1 &&& 0xFFFE) ∧
    rhd2164_sample_all const_sample_dev (fun _ => 0) (rhd_rx_ch 5 + 32) =
      (rhd_sample_seq const_sample_dev (0, 0) (5 + 1)).2 ∧
    (rhd2164_sample_all const_sample_dev (fun _ => 0) 0).testBit 0 = false) :=
  ⟨by decide, c4_sample_all_remap const_sample_dev (fun _ => 0) 5 (by decide)⟩

end Rhd
